import Mathlib

set_option maxRecDepth 10000

/-!
Shallow embedding of the heuristic resume-extraction engine of
`app.py` (repository Oeunpao99/Resume-Screening), together with proofs
about it.  Python strings are modelled as `String`/`List Char`, Python
dicts with a fixed key set as structures (plus explicit key-order
rendering functions mirroring the dict literals), `datetime.now()` as an
explicit `PyDate` argument, and each `re` pattern of the source as a
faithful matcher (leftmost search, ordered alternation, greedy
quantifiers with backtracking).  ASCII case conversion models
`str.lower`/`str.title` (the source only feeds ASCII lexicons).
-/

/-! # Python string primitives -/

/-- The whitespace characters of `str.strip` / `\s` (ASCII range). -/
def pySpaceChar (c : Char) : Bool :=
  c == ' ' || c == '\t' || c == '\n' || c == '\r' || c == '\x0b' || c == '\x0c'

/-- `\w` of Python `re` (ASCII range): alphanumeric or underscore. -/
def isWordChar (c : Char) : Bool := c.isAlphanum || c == '_'

/-- Word-character test on an optional char; `none` (string edge) is not a word char. -/
def isWordO : Option Char → Bool
  | none => false
  | some c => isWordChar c

/-- `str.strip()`. -/
def pyStripL (cs : List Char) : List Char :=
  ((cs.dropWhile pySpaceChar).reverse.dropWhile pySpaceChar).reverse

/-- `str.lower()` (ASCII). -/
def lowerL (cs : List Char) : List Char := cs.map Char.toLower

/-- Python's substring test `needle in hay`. -/
def hasSub (needle : List Char) : List Char → Bool
  | [] => needle.isEmpty
  | c :: rest => needle.isPrefixOf (c :: rest) || hasSub needle rest

/-- `any(kw in hay for kw in needles)`. -/
def containsAny (hay : List Char) (needles : List String) : Bool :=
  needles.any fun n => hasSub n.data hay

/-- `str.split(sep)` for a single-character separator (keeps empty parts). -/
def splitOnChar (sep : Char) : List Char → List (List Char)
  | [] => [[]]
  | c :: rest =>
    if c == sep then [] :: splitOnChar sep rest
    else match splitOnChar sep rest with
      | [] => [[c]]
      | h :: t => (c :: h) :: t

/-- `text.split('\n')`. -/
def pySplitLines (text : String) : List (List Char) := splitOnChar '\n' text.data

/-- Helper for `str.split()` (split on whitespace runs, dropping empties). -/
def wsGo : List Char → List Char → List (List Char)
  | [], acc => if acc.isEmpty then [] else [acc.reverse]
  | c :: rest, acc =>
    if pySpaceChar c then
      (if acc.isEmpty then wsGo rest [] else acc.reverse :: wsGo rest [])
    else wsGo rest (c :: acc)

/-- `str.split()` with no argument. -/
def pySplitWs (cs : List Char) : List (List Char) := wsGo cs []

/-- Length of the maximal prefix satisfying `p`. -/
def countWhile (p : Char → Bool) (cs : List Char) : Nat := (cs.takeWhile p).length

/-- Python `str.title()` (ASCII): a letter is uppercased after a non-letter,
lowercased after a letter; other characters unchanged. -/
def titleGo : Bool → List Char → List Char
  | _, [] => []
  | prevAlpha, c :: rest =>
    (if c.isAlpha then (if prevAlpha then c.toLower else c.toUpper) else c)
      :: titleGo c.isAlpha rest

/-- `str.title()`. -/
def pyTitle (s : String) : String := String.mk (titleGo false s.data)

/-- `int(s)` for strings: optional surrounding whitespace, optional sign,
then a nonempty digit string (numeric-literal underscores are not modelled;
no string reaching `int` in this program contains them).  `none` models a
raised `ValueError`. -/
def natDigits : List Char → Option Nat
  | [] => none
  | cs =>
    if cs.all Char.isDigit then
      some (cs.foldl (fun a c => a * 10 + (c.toNat - 48)) 0)
    else none

/-- Python `int(·)` on a string, as an `Option Int`. -/
def pyInt (cs : List Char) : Option Int :=
  match pyStripL cs with
  | '+' :: rest => (natDigits rest).map fun n => (n : Int)
  | '-' :: rest => (natDigits rest).map fun n => -(n : Int)
  | rest => (natDigits rest).map fun n => (n : Int)

/-! # A small backtracking regex engine

Used for the personal-info patterns (email, phone, linkedin, github, url).
Alternatives are tried in order, quantifiers are greedy with backtracking,
search is leftmost — exactly `re.search` semantics for these patterns. -/

/-- Regex syntax: character classes with counted repetition (greedy),
literals, sequencing, ordered alternation, greedy option, and `\b`. -/
inductive Rx where
  | cls : (Char → Bool) → Nat → Option Nat → Rx
  | lit : List Char → Rx
  | seq : List Rx → Rx
  | alt : List Rx → Rx
  | opt : Rx → Rx
  | wordB : Rx

/-- Try consuming `j, j-1, …, lo` characters of a class run (greedy order);
the continuation returns the length of input left after a full match. -/
def clsTry (k : Option Char → List Char → Option Nat) (prev : Option Char)
    (cs : List Char) (lo : Nat) : Nat → Option Nat
  | 0 => if lo == 0 then k prev cs else none
  | j + 1 =>
    if j + 1 < lo then none
    else
      match k ((cs.take (j + 1)).getLast?) (cs.drop (j + 1)) with
      | some n => some n
      | none => clsTry k prev cs lo j

/-- CPS matcher; `prev` is the character just before the current position
(for `\b`), the continuation receives the rest of the input and returns
the length of input remaining after the whole match. -/
def matchRx : Nat → Rx → Option Char → List Char →
    (Option Char → List Char → Option Nat) → Option Nat
  | 0, _, _, _, _ => none
  | fuel + 1, r, prev, cs, k =>
    match r with
    | .cls p lo hi =>
      let run := countWhile p cs
      let jmax := match hi with | some h => min h run | none => run
      clsTry k prev cs lo jmax
    | .lit s =>
      if s.isPrefixOf cs then
        k (if s.isEmpty then prev else s.getLast?) (cs.drop s.length)
      else none
    | .seq [] => k prev cs
    | .seq (x :: xs) =>
      matchRx fuel x prev cs fun pv rest => matchRx fuel (.seq xs) pv rest k
    | .alt [] => none
    | .alt (x :: xs) =>
      match matchRx fuel x prev cs k with
      | some n => some n
      | none => matchRx fuel (.alt xs) prev cs k
    | .opt x =>
      match matchRx fuel x prev cs k with
      | some n => some n
      | none => k prev cs
    | .wordB => if isWordO prev != isWordO cs.head? then k prev cs else none

/-- Leftmost search: try each start position in order. -/
def rxSearchGo (r : Rx) (prev : Option Char) (cs : List Char) (pos : Nat) :
    Option (Nat × Nat) :=
  match matchRx 1000 r prev cs fun _ rest => some rest.length with
  | some rem => some (pos, cs.length - rem)
  | none =>
    match cs with
    | [] => none
    | c :: rest => rxSearchGo r (some c) rest (pos + 1)

/-- `re.search(r, s)`, returning the matched substring (`.group()`). -/
def rxFirst (r : Rx) (cs : List Char) : Option (List Char) :=
  match rxSearchGo r none cs 0 with
  | some (i, n) => some ((cs.drop i).take n)
  | none => none

/-! # The personal-info regex patterns (`extract_personal_info`) -/

/-- `[A-Za-z0-9._%+-]` (email local part). -/
def emailLocalC (c : Char) : Bool :=
  c.isAlphanum || c == '.' || c == '_' || c == '%' || c == '+' || c == '-'

/-- `[A-Za-z0-9.-]` (email domain). -/
def emailDomC (c : Char) : Bool := c.isAlphanum || c == '.' || c == '-'

/-- `[A-Z|a-z]` (email tld — the source class literally contains a pipe). -/
def emailTldC (c : Char) : Bool := c.isUpper || c.isLower || c == '|'

/-- `\b[A-Za-z0-9._%+-]+@[A-Za-z0-9.-]+\.[A-Z|a-z]{2,}\b`. -/
def emailRx : Rx :=
  .seq [.wordB, .cls emailLocalC 1 none, .lit ['@'], .cls emailDomC 1 none,
        .lit ['.'], .cls emailTldC 2 none, .wordB]

/-- `[-.\s]` (phone separators). -/
def phoneSepC (c : Char) : Bool := c == '-' || c == '.' || pySpaceChar c

/-- `(\+?\d{1,3}[-.\s]?)?\(?\d{3}\)?[-.\s]?\d{3}[-.\s]?\d{4}`. -/
def phone1Rx : Rx :=
  .seq [.opt (.seq [.cls (· == '+') 0 (some 1), .cls Char.isDigit 1 (some 3),
                    .cls phoneSepC 0 (some 1)]),
        .cls (· == '(') 0 (some 1), .cls Char.isDigit 3 (some 3),
        .cls (· == ')') 0 (some 1), .cls phoneSepC 0 (some 1),
        .cls Char.isDigit 3 (some 3), .cls phoneSepC 0 (some 1),
        .cls Char.isDigit 4 (some 4)]

/-- `\b\d{3}[-.\s]?\d{3}[-.\s]?\d{4}\b`. -/
def phone2Rx : Rx :=
  .seq [.wordB, .cls Char.isDigit 3 (some 3), .cls phoneSepC 0 (some 1),
        .cls Char.isDigit 3 (some 3), .cls phoneSepC 0 (some 1),
        .cls Char.isDigit 4 (some 4), .wordB]

/-- `linkedin\.com/in/[^\s]+`. -/
def linkedinRx : Rx :=
  .seq [.lit "linkedin.com/in/".data, .cls (fun c => !pySpaceChar c) 1 none]

/-- `github\.com/[^\s]+`. -/
def githubRx : Rx :=
  .seq [.lit "github.com/".data, .cls (fun c => !pySpaceChar c) 1 none]

/-- The extra characters of the url class `[\w\-\.\~:/?#@!$&'"\(\)\*\+,;=%]`. -/
def urlExtraChars : List Char :=
  ['-', '.', '~', ':', '/', '?', '#', '@', '!', '$', '&',
   Char.ofNat 39, Char.ofNat 34, '(', ')', '*', '+', ',', ';', '=', '%']

/-- The url character class. -/
def urlC (c : Char) : Bool := isWordChar c || urlExtraChars.contains c

/-- `((https?://|www\.)[\w\-\.\~:/?#@!$&'"\(\)\*\+,;=%]+)` (group 1 is the
whole match). -/
def portfolioRx : Rx :=
  .seq [.alt [.seq [.lit "http".data, .cls (· == 's') 0 (some 1), .lit "://".data],
              .lit "www.".data],
        .cls urlC 1 none]

/-! # `extract_personal_info` -/

structure PersonalInfo where
  full_name : String
  location : String
  first_name : String
  last_name : String
  email : String
  phone : String
  address : String
  linkedin : String
  github : String
  portfolio_link : String
deriving DecidableEq, Repr

/-- The keywords excluded from a name line. -/
def nameExcl : List String :=
  ["resume", "cv", "curriculum", "vitae", "phone", "email", "linkedin"]

/-- Characters allowed by `^[A-Za-z\s\.\-]+$`. -/
def nameChar (c : Char) : Bool :=
  c.isAlpha || pySpaceChar c || c == '.' || c == '-'

/-- The acceptance test of the name-scan loop (on the stripped line):
`len > 2 and len < 50`, no excluded keyword, and the charset regex. -/
def nameOk (lc : List Char) : Bool :=
  decide (2 < lc.length) && decide (lc.length < 50) &&
  !(containsAny (lowerL lc) nameExcl) &&
  (!lc.isEmpty && lc.all nameChar)

/-- Address-keyword list of location pass 1. -/
def addressToks : List String :=
  ["address", "location", "city", "province", "district", "street", "road"]

/-- Location pass 1 predicate (first 12 lines). -/
def locPass1 (l : List Char) : Bool :=
  containsAny (lowerL (pyStripL l)) addressToks && decide (5 < (pyStripL l).length)

/-- Location pass 2 predicate (first 8 lines): a comma in the raw line,
stripped length > 8, no `@` in the raw line. -/
def locPass2 (l : List Char) : Bool :=
  hasSub [','] l && decide (8 < (pyStripL l).length) && !(hasSub ['@'] l)

def extract_personal_info (text : String) : PersonalInfo :=
  let lines := pySplitLines text
  let nm := ((lines.take 10).map pyStripL).find? nameOk
  let names :=
    match nm with
    | none => ("", "", "")
    | some lc =>
      match pySplitWs lc with
      | [] => (String.mk lc, "", "")
      | h :: t =>
        (String.mk lc, String.mk h,
         if t.isEmpty then "" else String.mk ((h :: t).getLastD []))
  let email :=
    match rxFirst emailRx text.data with
    | some m => String.mk m
    | none => ""
  let phone :=
    match rxFirst phone1Rx text.data with
    | some m => String.mk m
    | none =>
      match rxFirst phone2Rx text.data with
      | some m => String.mk m
      | none => ""
  let lnk :=
    match rxFirst linkedinRx text.data with
    | some m => String.mk m
    | none => ""
  let gh :=
    match rxFirst githubRx text.data with
    | some m => String.mk m
    | none => ""
  let pf :=
    match rxFirst portfolioRx text.data with
    | some m =>
      let cand := pyStripL m
      if !(hasSub ['@'] cand) && !(hasSub "linkedin".data cand) &&
         !(hasSub "github".data cand)
      then String.mk cand else ""
    | none => ""
  let loc :=
    match (lines.take 12).find? locPass1 with
    | some l => String.mk (pyStripL l)
    | none =>
      match (lines.take 8).find? locPass2 with
      | some l => String.mk (pyStripL l)
      | none => ""
  { full_name := names.1, location := loc, first_name := names.2.1,
    last_name := names.2.2, email := email, phone := phone, address := loc,
    linkedin := lnk, github := gh, portfolio_link := pf }

/-! # `extract_summary` -/

def sumHeaderKw : List String := ["summary", "objective", "profile", "about"]

def sumBreakKw : List String := ["experience", "education", "skills", "projects"]

/-- The accumulation loop of `extract_summary`: header lines are skipped
(setting the flag), accumulated lines are `line_clean + " "`, accumulation
stops at a competing section keyword or at a short/empty line once text
has been gathered. -/
def sumLoop : List (List Char) → Bool → List Char → List Char
  | [], _, acc => pyStripL acc
  | l :: rest, inSum, acc =>
    let lc := pyStripL l
    if containsAny (lowerL lc) sumHeaderKw then sumLoop rest true acc
    else if inSum then
      if !lc.isEmpty && decide (10 < lc.length) then
        if containsAny (lowerL lc) sumBreakKw then pyStripL acc
        else sumLoop rest true (acc ++ lc ++ [' '])
      else if acc.isEmpty then sumLoop rest inSum acc
      else pyStripL acc
    else sumLoop rest inSum acc

def extract_summary (text : String) : String :=
  String.mk (sumLoop (pySplitLines text) false [])

/-! # `extract_work_experience` -/

structure WorkEntry where
  company_name : String
  job_title : String
  start_date : String
  end_date : String
  duration : String
  responsibilities : List String
deriving DecidableEq, Repr

/-- One whole-word `at` (case-insensitive) starting here?  `\bat\b` with
IGNORECASE: `a`/`A` then `t`/`T`, a non-word char (or edge) on each side. -/
def atWordHereB (prev : Option Char) : List Char → Bool
  | a :: t :: rest =>
    a.toLower == 'a' && t.toLower == 't' && !(isWordO prev) && !(isWordO rest.head?)
  | _ => false

/-- `re.search(r'\bat\b', line, re.IGNORECASE)` as a Boolean. -/
def hasAtWord : Option Char → List Char → Bool
  | prev, a :: rest => atWordHereB prev (a :: rest) || hasAtWord (some a) rest
  | _, [] => false

/-- Helper for `re.split(r'\bat\b', line, flags=re.IGNORECASE)`:
left-to-right non-overlapping matches become cut points. -/
def atSplitGo (prev : Option Char) (acc : List Char) : List Char → List (List Char)
  | [] => [acc.reverse]
  | a :: rest =>
    if atWordHereB prev (a :: rest) then
      match rest with
      | t :: rest2 => acc.reverse :: atSplitGo (some t) [] rest2
      | [] => [acc.reverse]
    else atSplitGo (some a) (a :: acc) rest

/-- `re.split(r'\bat\b', line, flags=re.IGNORECASE)`. -/
def atSplit (cs : List Char) : List (List Char) := atSplitGo none [] cs

/-- The separator class `[|\-•,–—]` of the non-`at` split. -/
def isSepChar (c : Char) : Bool :=
  c == '|' || c == '-' || c == '•' || c == ',' || c == '–' || c == '—'

/-- Helper for `re.split(r'[|\-•,–—]', line)`. -/
def sepSplitGo (acc : List Char) : List Char → List (List Char)
  | [] => [acc.reverse]
  | c :: rest =>
    if isSepChar c then acc.reverse :: sepSplitGo [] rest
    else sepSplitGo (c :: acc) rest

/-- `re.split(r'[|\-•,–—]', line)`. -/
def sepSplit (cs : List Char) : List (List Char) := sepSplitGo [] cs

/-- Build `current_job` from an entry-opening line (the company/title split,
source lines 186-212).  With a whole-word `at`: text before the first `at`
is the job title, the second split part is the company.  Otherwise split on
`[|\-•,–—]` and take the first two parts as company, title.  `none` models
`current_job` staying the empty dict. -/
def openJob (lc : List Char) : Option WorkEntry :=
  if hasAtWord none lc then
    match atSplit lc with
    | p0 :: p1 :: _ =>
      some { company_name := String.mk (pyStripL p1),
             job_title := String.mk (pyStripL p0),
             start_date := "", end_date := "", duration := "",
             responsibilities := [] }
    | _ => none
  else
    match sepSplit lc with
    | p0 :: p1 :: _ =>
      some { company_name := String.mk (pyStripL p0),
             job_title := String.mk (pyStripL p1),
             start_date := "", end_date := "", duration := "",
             responsibilities := [] }
    | _ => none

/-- `(19|20)\d{2}` matches at the head of `cs`? -/
def yearHere : List Char → Bool
  | c1 :: c2 :: c3 :: c4 :: _ =>
    ((c1 == '1' && c2 == '9') || (c1 == '2' && c2 == '0')) &&
    c3.isDigit && c4.isDigit
  | _ => false

/-- `re.search(r'(19|20)\d{2}', line)` as a Boolean. -/
def hasYear : List Char → Bool
  | [] => false
  | cs@(_ :: rest) => yearHere cs || hasYear rest

/-- Leftmost `(19|20)\d{2}` match, returning the full 4-digit match. -/
def yearSearch : List Char → Option (List Char)
  | [] => none
  | cs@(_ :: rest) => if yearHere cs then some (cs.take 4) else yearSearch rest

/-- The capture group of `(19|20)\d{2}` (its first two characters). -/
def yearGroup : List Char → List Char
  | c1 :: c2 :: _ => [c1, c2]
  | _ => []

/-- One token of `re.findall(r'(19|20)\d{2}|Present|Current', s)`:
the year alternative contributes its *group* (`"19"`/`"20"`), the
`Present`/`Current` alternatives contribute an empty group. -/
def yearTok (cs : List Char) : Option (String × Nat) :=
  if yearHere cs then some (String.mk (yearGroup cs), 4)
  else if "Present".data.isPrefixOf cs then some ("", 7)
  else if "Current".data.isPrefixOf cs then some ("", 7)
  else none

/-- Fueled scan of `re.findall(r'(19|20)\d{2}|Present|Current', s)`. -/
def yearFindallF : Nat → List Char → List String
  | 0, _ => []
  | _, [] => []
  | fuel + 1, c :: rest =>
    match yearTok (c :: rest) with
    | some (g, n) => g :: yearFindallF fuel (rest.drop (n - 1))
    | none => yearFindallF fuel rest

/-- `re.findall(r'(19|20)\d{2}|Present|Current', s)` (group results). -/
def yearFindall (cs : List Char) : List String := yearFindallF cs.length cs

/-! The date-range pattern
`(\w+\s*\d{4}\s*[-–]\s*\w+\s*\d{4}|\d{4}\s*[-–]\s*\d{4}|\d{4}\s*[-–]\s*Present|Present|Current)`
hand-compiled: `\s*` before `\d`/`[-–]`/`\w` is deterministic (the classes
are disjoint from whitespace), the two `\w+` of the first alternative
backtrack greedily. -/

/-- `[-–]`. -/
def isDashChar (c : Char) : Bool := c == '-' || c == '–'

/-- Four digits at the head? -/
def isD4 : List Char → Bool
  | a :: b :: c :: d :: _ => a.isDigit && b.isDigit && c.isDigit && d.isDigit
  | _ => false

/-- Tail of alternative 1 after the dash: `\s*\w+\s*\d{4}` with the `\w+`
length tried greedily from `j2` down to 1.  Returns consumed length. -/
def alt1End (r : List Char) : Nat → Option Nat
  | 0 => none
  | j2 + 1 =>
    let r2 := r.drop (j2 + 1)
    let s := countWhile pySpaceChar r2
    if isD4 (r2.drop s) then some (j2 + 1 + s + 4) else alt1End r j2

/-- Alternative 1 after its first `\w+`: `\s*\d{4}\s*[-–]\s*\w+\s*\d{4}`. -/
def alt1Mid (cs : List Char) : Option Nat :=
  let s1 := countWhile pySpaceChar cs
  let r1 := cs.drop s1
  if isD4 r1 then
    let r2 := r1.drop 4
    let s2 := countWhile pySpaceChar r2
    match r2.drop s2 with
    | d :: r3 =>
      if isDashChar d then
        let s3 := countWhile pySpaceChar r3
        let r4 := r3.drop s3
        match alt1End r4 (countWhile isWordChar r4) with
        | some n => some (s1 + 4 + s2 + 1 + s3 + n)
        | none => none
      else none
    | [] => none
  else none

/-- Alternative 1 with its leading `\w+` tried greedily from `j` down to 1. -/
def alt1Try (cs : List Char) : Nat → Option Nat
  | 0 => none
  | j + 1 =>
    match alt1Mid (cs.drop (j + 1)) with
    | some n => some (j + 1 + n)
    | none => alt1Try cs j

/-- `\w+\s*\d{4}\s*[-–]\s*\w+\s*\d{4}` at this position. -/
def dateAlt1 (cs : List Char) : Option Nat := alt1Try cs (countWhile isWordChar cs)

/-- `\d{4}\s*[-–]\s*\d{4}` at this position. -/
def dateAlt2 (cs : List Char) : Option Nat :=
  if isD4 cs then
    let r1 := cs.drop 4
    let s1 := countWhile pySpaceChar r1
    match r1.drop s1 with
    | d :: r2 =>
      if isDashChar d then
        let s2 := countWhile pySpaceChar r2
        if isD4 (r2.drop s2) then some (4 + s1 + 1 + s2 + 4) else none
      else none
    | [] => none
  else none

/-- `\d{4}\s*[-–]\s*Present` at this position. -/
def dateAlt3 (cs : List Char) : Option Nat :=
  if isD4 cs then
    let r1 := cs.drop 4
    let s1 := countWhile pySpaceChar r1
    match r1.drop s1 with
    | d :: r2 =>
      if isDashChar d then
        let s2 := countWhile pySpaceChar r2
        if "Present".data.isPrefixOf (r2.drop s2) then some (4 + s1 + 1 + s2 + 7)
        else none
      else none
    | [] => none
  else none

/-- The five ordered alternatives of the date-range pattern at one position. -/
def dateAtPos (cs : List Char) : Option Nat :=
  match dateAlt1 cs with
  | some n => some n
  | none =>
    match dateAlt2 cs with
    | some n => some n
    | none =>
      match dateAlt3 cs with
      | some n => some n
      | none =>
        if "Present".data.isPrefixOf cs then some 7
        else if "Current".data.isPrefixOf cs then some 7
        else none

/-- Leftmost search of the date-range pattern; returns the matched text. -/
def dateSearch : List Char → Option (List Char)
  | [] => none
  | cs@(_ :: rest) =>
    match dateAtPos cs with
    | some n => some (cs.take n)
    | none => dateSearch rest

/-- The date assignments of source lines 218-222: `dates[0]` (when present,
and not a `Present`/`Current` token) with `"-01"` appended becomes
`start_date`, `dates[1]` likewise becomes `end_date` (else `"Present"`). -/
def applyYears (j : WorkEntry) (dates : List String) : WorkEntry :=
  let j1 :=
    match dates with
    | d0 :: _ =>
      { j with start_date :=
          if d0 ≠ "Present" ∧ d0 ≠ "Current" then d0 ++ "-01" else "" }
    | [] => j
  match dates with
  | _ :: d1 :: _ =>
    { j1 with end_date :=
        if d1 ≠ "Present" ∧ d1 ≠ "Current" then d1 ++ "-01" else "Present" }
  | _ => j1

/-- Source lines 214-223: run the date-range search over the opening line;
when it matches and an entry is open, fill the dates and the raw duration. -/
def applyDatesLine (lc : List Char) (cur : Option WorkEntry) : Option WorkEntry :=
  match dateSearch lc with
  | none => cur
  | some ds =>
    match cur with
    | none => none
    | some j => some { applyYears j (yearFindall ds) with duration := String.mk ds }

/-- `re.sub(r'^[•\-]\s*', '', line)`: strip one leading bullet and the
whitespace after it. -/
def stripBullet (lc : List Char) : List Char :=
  match lc with
  | c :: rest => if c == '•' || c == '-' then rest.dropWhile pySpaceChar else lc
  | [] => lc

/-- Responsibility collection (source lines 227-231). -/
def addResp (lc : List Char) (j : WorkEntry) : WorkEntry :=
  if lc.head? == some '•' || lc.head? == some '-' ||
     (decide (20 < lc.length) && !hasYear lc) then
    let r := stripBullet lc
    if 10 < r.length then
      { j with responsibilities := j.responsibilities ++ [String.mk r] }
    else j
  else j

def weHeaders : List String :=
  ["experience", "work experience", "employment", "work history"]

def weBreaks : List String := ["education", "skills", "projects", "certifications"]

def weSaveKw : List String := ["education", "skills"]

/-- Flush helper: the `if current_job: experience.append(current_job)`. -/
def flushW : Option WorkEntry → List WorkEntry
  | none => []
  | some j => [j]

/-- The main loop of `extract_work_experience`.  The loop index with its
one-line lookahead `lines[i+1]` is modelled by recursing on the remaining
lines (`rest.head?` is the lookahead). -/
def weLoop : List (List Char) → Bool → Option WorkEntry → List WorkEntry →
    List WorkEntry
  | [], _, cur, acc => acc ++ flushW cur
  | l :: rest, inSec, cur, acc =>
    let lc := pyStripL l
    if lc.isEmpty then weLoop rest inSec cur acc
    else if containsAny (lowerL lc) weHeaders then weLoop rest true cur acc
    else if inSec then
      if containsAny (lowerL lc) weBreaks then acc ++ flushW cur
      else
        match cur with
        | none =>
          if 5 < lc.length then weLoop rest inSec (applyDatesLine lc (openJob lc)) acc
          else weLoop rest inSec none acc
        | some j =>
          let j1 := addResp lc j
          match rest with
          | next :: _ =>
            if containsAny (lowerL next) weSaveKw then
              weLoop rest inSec none (acc ++ [j1])
            else weLoop rest inSec (some j1) acc
          | [] => weLoop rest inSec (some j1) acc
    else weLoop rest inSec cur acc

def extract_work_experience (text : String) : List WorkEntry :=
  weLoop (pySplitLines text) false none []

/-! # `extract_education` -/

structure EduEntry where
  degree : String
  major : String
  school_name : String
  start_date : String
  end_date : String
  gpa : String
deriving DecidableEq, Repr

/-- `GPA\s*:?\s*(\d\.\d{1,2})` (IGNORECASE) at this position; returns
group 1 (`\d\.\d{1,2}`, greedy).  After the spaces a colon is consumed if
present (if the rest then fails, the no-colon branch fails on the colon
anyway, so this is exact). -/
def gpaAt : List Char → Option (List Char)
  | g :: p :: a :: rest =>
    if g.toLower == 'g' && p.toLower == 'p' && a.toLower == 'a' then
      let r1 := rest.drop (countWhile pySpaceChar rest)
      let r2 := match r1 with
        | ':' :: t => t
        | _ => r1
      let r3 := r2.drop (countWhile pySpaceChar r2)
      match r3 with
      | d :: dot :: d1 :: rest2 =>
        if d.isDigit && dot == '.' && d1.isDigit then
          match rest2 with
          | d2 :: _ => if d2.isDigit then some [d, '.', d1, d2] else some [d, '.', d1]
          | [] => some [d, '.', d1]
        else none
      | _ => none
    else none
  | _ => none

/-- `re.search(r'GPA\s*:?\s*(\d\.\d{1,2})', line, re.IGNORECASE).group(1)`. -/
def gpaSearch : List Char → Option (List Char)
  | [] => none
  | cs@(_ :: rest) =>
    match gpaAt cs with
    | some g => some g
    | none => gpaSearch rest

def eduHeaders : List String := ["education", "academic", "qualifications"]

def eduBreaks : List String := ["experience", "skills", "projects", "certifications"]

def eduSaveKw : List String := ["experience", "skills", "projects"]

def degreeKw : List String :=
  ["bachelor", "master", "phd", "associate", "diploma", "degree"]

/-- Opening an education entry (source lines 266-290). -/
def openEdu (lc : List Char) : EduEntry :=
  let e0 : EduEntry :=
    { degree := "", major := "", school_name := "", start_date := "",
      end_date := "", gpa := "" }
  let e1 :=
    if hasSub "university".data (lowerL lc) || hasSub "college".data (lowerL lc)
    then { e0 with school_name := String.mk lc }
    else { e0 with degree := String.mk lc }
  let e2 :=
    match yearSearch lc with
    | some y => { e1 with end_date := String.mk y ++ "-01" }
    | none => e1
  match gpaSearch lc with
  | some g => { e2 with gpa := String.mk g }
  | none => e2

def flushE : Option EduEntry → List EduEntry
  | none => []
  | some e => [e]

/-- The main loop of `extract_education`. -/
def eduLoop : List (List Char) → Bool → Option EduEntry → List EduEntry →
    List EduEntry
  | [], _, cur, acc => acc ++ flushE cur
  | l :: rest, inSec, cur, acc =>
    let lc := pyStripL l
    if lc.isEmpty then eduLoop rest inSec cur acc
    else if containsAny (lowerL lc) eduHeaders then eduLoop rest true cur acc
    else if inSec then
      if containsAny (lowerL lc) eduBreaks then acc ++ flushE cur
      else
        match cur with
        | none =>
          if 5 < lc.length && containsAny (lowerL lc) degreeKw then
            eduLoop rest inSec (some (openEdu lc)) acc
          else eduLoop rest inSec none acc
        | some e =>
          let e1 :=
            if e.school_name == "" &&
               (hasSub "university".data (lowerL lc) ||
                hasSub "college".data (lowerL lc)) then
              { e with school_name := String.mk lc }
            else e
          match rest with
          | next :: _ =>
            if containsAny (lowerL next) eduSaveKw then
              eduLoop rest inSec none (acc ++ [e1])
            else eduLoop rest inSec (some e1) acc
          | [] => eduLoop rest inSec (some e1) acc
    else eduLoop rest inSec cur acc

def extract_education (text : String) : List EduEntry :=
  eduLoop (pySplitLines text) false none []

/-! # `extract_skills` -/

structure Skills where
  programming : List String
  web : List String
  data : List String
  devops : List String
  tools : List String
  soft_skills : List String
deriving DecidableEq, Repr

def progKeywords : List String :=
  ["python", "java", "javascript", "typescript", "c++", "c#", "php", "ruby"]

def webKeywords : List String :=
  ["html", "css", "react", "angular", "vue", "node.js", "express", "django",
   "flask", "spring", "laravel"]

def dataKeywords : List String :=
  ["sql", "mysql", "postgresql", "mongodb", "redis",
   "pandas", "numpy", "data analysis", "machine learning"]

def devopsKeywords : List String :=
  ["aws", "azure", "gcp", "docker", "kubernetes", "jenkins", "gitlab",
   "terraform", "linux"]

def toolsKeywords : List String :=
  ["git", "github", "gitlab", "jira", "docker", "postman"]

def softKeywords : List String :=
  ["leadership", "communication", "teamwork", "problem solving",
   "critical thinking", "project management", "agile", "scrum"]

/-- `re.search(r'\b' + re.escape(kw) + r'\b', hay)` matching at position `i`:
the literal keyword as a prefix of `hay.drop i` with a `\b` on each side
(the boundary holds when the word-character statuses of the two neighbouring
positions differ; a string edge counts as non-word). -/
def wordMatchAt (kw hay : List Char) (i : Nat) : Bool :=
  kw.isPrefixOf (hay.drop i) &&
  (isWordO (if i == 0 then none else (hay.take i).getLast?) != isWordO kw.head?) &&
  (isWordO kw.getLast? != isWordO ((hay.drop (i + kw.length)).head?))

/-- `re.search(r'\b' + re.escape(kw) + r'\b', hay)` as a Boolean. -/
def wordSearchKw (kw hay : List Char) : Bool :=
  (List.range hay.length).any fun i => wordMatchAt kw hay i

/-- One category of `extract_skills`: for each keyword matched (whole-word,
over the lowered text) append `keyword.title()`; `list(set(·))` at the end
is modelled as `List.dedup` (the Python set order is unspecified and no
property below depends on order). -/
def matchCategory (kws : List String) (lowHay : List Char) : List String :=
  ((kws.filter fun k => wordSearchKw k.data lowHay).map pyTitle).dedup

def extract_skills (text : String) : Skills :=
  let low := lowerL text.data
  { programming := matchCategory progKeywords low,
    web := matchCategory webKeywords low,
    data := matchCategory dataKeywords low,
    devops := matchCategory devopsKeywords low,
    tools := matchCategory toolsKeywords low,
    soft_skills := matchCategory softKeywords low }

/-! # `extract_projects` -/

structure Project where
  title : String
  description : String
  technologies : List String
  role : String
  duration : String
deriving DecidableEq, Repr

def projHeaders : List String := ["projects", "personal projects", "portfolio"]

def projBreaks : List String := ["experience", "education", "skills", "certifications"]

def projSaveKw : List String := ["experience", "education"]

def techKeywords : List String :=
  ["python", "java", "react", "node", "sql", "mongodb", "aws"]

def flushP : Option Project → List Project
  | none => []
  | some p => [p]

/-- The main loop of `extract_projects`. -/
def projLoop : List (List Char) → Bool → Option Project → List Project →
    List Project
  | [], _, cur, acc => acc ++ flushP cur
  | l :: rest, inSec, cur, acc =>
    let lc := pyStripL l
    if lc.isEmpty then projLoop rest inSec cur acc
    else if containsAny (lowerL lc) projHeaders then projLoop rest true cur acc
    else if inSec then
      if containsAny (lowerL lc) projBreaks then acc ++ flushP cur
      else
        match cur with
        | none =>
          if 5 < lc.length && lc.length < 100 then
            projLoop rest inSec
              (some { title := String.mk lc, description := "",
                      technologies := [], role := "", duration := "" }) acc
          else projLoop rest inSec none acc
        | some p =>
          let p1 :=
            if 20 < lc.length then
              if p.description == "" then { p with description := String.mk lc }
              else
                { p with technologies := p.technologies ++
                    techKeywords.filter fun t => hasSub t.data (lowerL lc) }
            else p
          match rest with
          | next :: _ =>
            if (pyStripL next).isEmpty || containsAny (lowerL next) projSaveKw then
              projLoop rest inSec none (acc ++ [p1])
            else projLoop rest inSec (some p1) acc
          | [] => projLoop rest inSec (some p1) acc
    else projLoop rest inSec cur acc

def extract_projects (text : String) : List Project :=
  projLoop (pySplitLines text) false none []

/-! # `extract_additional_info` -/

structure AdditionalInfo where
  certifications : List String
  languages : List String
  awards : List String
deriving DecidableEq, Repr

/-- The section-pointer loop of `extract_additional_info`. -/
def aiLoop : List (List Char) → String → AdditionalInfo → AdditionalInfo
  | [], _, acc => acc
  | l :: rest, sec, acc =>
    let lc := pyStripL l
    if lc.isEmpty then aiLoop rest sec acc
    else
      let low := lowerL lc
      if "certificat".data.isPrefixOf low || "certification".data.isPrefixOf low then
        aiLoop rest "certifications" acc
      else if "language".data.isPrefixOf low || low == "languages".data ||
              "languages:".data.isPrefixOf low then
        aiLoop rest "languages" acc
      else if "award".data.isPrefixOf low || "awards".data.isPrefixOf low ||
              hasSub "honor".data low then
        aiLoop rest "awards" acc
      else if sec != "" && decide (2 < lc.length) then
        if sec == "certifications" then
          aiLoop rest sec { acc with certifications := acc.certifications ++ [String.mk lc] }
        else if sec == "languages" then
          aiLoop rest sec { acc with languages := acc.languages ++ [String.mk lc] }
        else if sec == "awards" then
          aiLoop rest sec { acc with awards := acc.awards ++ [String.mk lc] }
        else aiLoop rest sec acc
      else aiLoop rest sec acc

def extract_additional_info (text : String) : AdditionalInfo :=
  aiLoop (pySplitLines text) "" { certifications := [], languages := [], awards := [] }

/-! # Experience metrics (`calculate_total_experience`,
`calculate_experience_level`) -/

/-- `datetime.now()`, made explicit. -/
structure PyDate where
  year : Nat
  month : Nat
  day : Nat
deriving DecidableEq, Repr

/-- Zero-pad to two digits (`%m`, `%d`). -/
def pad2 (n : Nat) : String := if n < 10 then "0" ++ toString n else toString n

/-- Zero-pad to four digits (`%Y`). -/
def pad4 (n : Nat) : String :=
  let s := toString n
  String.mk (List.replicate (4 - s.length) '0') ++ s

/-- `now.strftime("%Y-%m")`. -/
def fmtYM (d : PyDate) : String := pad4 d.year ++ "-" ++ pad2 d.month

/-- `now.strftime("%Y-%m-%d")`. -/
def fmtYMD (d : PyDate) : String := fmtYM d ++ "-" ++ pad2 d.day

/-- `start_year, start_month = map(int, s.split('-'))`: exactly two parts,
each accepted by `int`; `none` models the raised exception. -/
def parseYM (s : String) : Option (Int × Int) :=
  match splitOnChar '-' s.data with
  | [a, b] =>
    match pyInt a, pyInt b with
    | some y, some m => some (y, m)
    | _, _ => none
  | _ => none

/-- One iteration of the month-summing loop of `calculate_total_experience`
(source lines 483-497); a parse failure leaves the accumulator unchanged. -/
def totalStep (now : PyDate) (acc : Int) (j : WorkEntry) : Int :=
  if j.start_date = "" then acc
  else if j.end_date = "" then acc
  else
    let ed := if j.end_date = "Present" then fmtYM now else j.end_date
    match parseYM j.start_date, parseYM ed with
    | some (sy, sm), some (ey, em) => acc + ((ey - sy) * 12 + (em - sm))
    | _, _ => acc

/-- The `years`/`months` formatting of source lines 499-507
(`//` and `%` are Python floor division and modulo). -/
def formatTotal (total : Int) : String :=
  let years := Int.fdiv total 12
  let months := Int.fmod total 12
  if years = 0 then toString months ++ " months"
  else if months = 0 then toString years ++ " years"
  else toString years ++ " years " ++ toString months ++ " months"

def calculate_total_experience (we : List WorkEntry) (now : PyDate) : String :=
  formatTotal (we.foldl (totalStep now) 0)

/-- One iteration of the year-summing loop of `calculate_experience_level`
(source lines 455-462). -/
def levelStep (now : PyDate) (acc : Int) (j : WorkEntry) : Int :=
  if j.start_date = "" then acc
  else if j.end_date = "" then acc
  else
    let sy? := if j.start_date ≠ "" then pyInt (j.start_date.data.take 4) else some 0
    let ey? :=
      if j.end_date ≠ "Present" then pyInt (j.end_date.data.take 4)
      else some (Int.ofNat now.year)
    match sy?, ey? with
    | some sy, some ey => acc + (ey - sy)
    | _, _ => acc

def calculate_experience_level (we : List WorkEntry) (text : String) (now : PyDate) :
    String :=
  let ty := we.foldl (levelStep now) 0
  let ty :=
    if ty = 0 then
      if 3000 < text.length then 3
      else if 1500 < text.length then 1
      else 0
    else ty
  if 5 ≤ ty then "Experienced"
  else if 2 ≤ ty then "Intermediate"
  else "Fresher"

/-! # The assembled structured profile (`analyze_resume`, lines 542-568) -/

structure Profile where
  personal_info : PersonalInfo
  summary : String
  work_experience : List WorkEntry
  education : List EduEntry
  skills : Skills
  projects : List Project
  certifications : List String
  languages : List String
  awards : List String
  total_experience : String
  experience_level : String
  additional_note : String
deriving DecidableEq, Repr

/-- The `structured_data` dict built by `analyze_resume` (its
`additional_info` timestamp string is the `additional_note` field). -/
def analyzeResume (text : String) (now : PyDate) : Profile :=
  { personal_info := extract_personal_info text,
    summary := extract_summary text,
    work_experience := extract_work_experience text,
    education := extract_education text,
    skills := extract_skills text,
    projects := extract_projects text,
    certifications := (extract_additional_info text).certifications,
    languages := (extract_additional_info text).languages,
    awards := (extract_additional_info text).awards,
    total_experience := calculate_total_experience (extract_work_experience text) now,
    experience_level := calculate_experience_level (extract_work_experience text) text now,
    additional_note := "Analyzed on " ++ fmtYMD now ++ ". Text length: " ++
      toString text.length ++ " characters." }

/-! # Key-order renderings of the fixed-key dicts (for structural
completeness claims) -/

/-- The `info` dict of `extract_personal_info` in literal order. -/
def piEntries (r : PersonalInfo) : List (String × String) :=
  [("full_name", r.full_name), ("location", r.location),
   ("first_name", r.first_name), ("last_name", r.last_name),
   ("email", r.email), ("phone", r.phone), ("address", r.address),
   ("linkedin", r.linkedin), ("github", r.github),
   ("portfolio", r.portfolio_link)]

/-- The `skills` dict of `extract_skills` in literal order. -/
def skillsEntries (s : Skills) : List (String × List String) :=
  [("programming", s.programming), ("web", s.web), ("data", s.data),
   ("devops", s.devops), ("tools", s.tools), ("soft_skills", s.soft_skills)]

/-- The `info` dict of `extract_additional_info` in literal order. -/
def aiEntries (a : AdditionalInfo) : List (String × List String) :=
  [("certifications", a.certifications), ("languages", a.languages),
   ("awards", a.awards)]

/-! # Claim-side (specification) definitions -/

/-- C8's reading of the name filter: trimmed length between 2 and 50
*inclusive* (the code uses strict bounds). -/
def claimNameOkIncl (lc : List Char) : Bool :=
  decide (2 ≤ lc.length) && decide (lc.length ≤ 50) &&
  !(containsAny (lowerL lc) nameExcl) && (!lc.isEmpty && lc.all nameChar)

/-- Strictly of the shape `YYYY-MM` (4 digits, dash, 2 digits), as C3's
words "parse as YYYY-MM" read literally. -/
def isYYYYMM (s : String) : Bool :=
  match s.data with
  | [a, b, c, d, dash, e, f] =>
    a.isDigit && b.isDigit && c.isDigit && d.isDigit && dash == '-' &&
    e.isDigit && f.isDigit
  | _ => false

/-- Month contribution of one work entry, following C3's words with the
strict `YYYY-MM` reading. -/
def entryMonthsClaimed (now : PyDate) (j : WorkEntry) : Option Int :=
  if j.start_date = "" then none
  else if j.end_date = "" then none
  else
    let ed := if j.end_date = "Present" then fmtYM now else j.end_date
    if isYYYYMM j.start_date && isYYYYMM ed then
      match parseYM j.start_date, parseYM ed with
      | some (sy, sm), some (ey, em) => some ((ey - sy) * 12 + (em - sm))
      | _, _ => none
    else none

/-- C3 as literally stated (sum only over strict `YYYY-MM` entries). -/
def totalExperienceClaimed (we : List WorkEntry) (now : PyDate) : String :=
  formatTotal ((we.filterMap (entryMonthsClaimed now)).sum)

/-- Month contribution of one work entry as the code computes it: both
dates nonempty and `int`-`int` parsable after splitting on `-`
(`"Present"` resolved to the current month). -/
def entryMonthsAmended (now : PyDate) (j : WorkEntry) : Option Int :=
  if j.start_date = "" then none
  else if j.end_date = "" then none
  else
    let ed := if j.end_date = "Present" then fmtYM now else j.end_date
    match parseYM j.start_date, parseYM ed with
    | some (sy, sm), some (ey, em) => some ((ey - sy) * 12 + (em - sm))
    | _, _ => none

/-- The amended C3: a `filterMap`/`sum` presentation of
`calculate_total_experience`. -/
def totalExperienceAmended (we : List WorkEntry) (now : PyDate) : String :=
  formatTotal ((we.filterMap (entryMonthsAmended now)).sum)

/-- Whole-year contribution of one work entry as the code computes it. -/
def entryYearsAmended (now : PyDate) (j : WorkEntry) : Option Int :=
  if j.start_date = "" then none
  else if j.end_date = "" then none
  else
    let sy? := if j.start_date ≠ "" then pyInt (j.start_date.data.take 4) else some 0
    let ey? :=
      if j.end_date ≠ "Present" then pyInt (j.end_date.data.take 4)
      else some (Int.ofNat now.year)
    match sy?, ey? with
    | some sy, some ey => some (ey - sy)
    | _, _ => none

/-- The amended C4: a `filterMap`/`sum` presentation of
`calculate_experience_level` (text-length fallback iff the sum is zero). -/
def levelAmended (we : List WorkEntry) (text : String) (now : PyDate) : String :=
  let ty := (we.filterMap (entryYearsAmended now)).sum
  let ty :=
    if ty = 0 then
      if 3000 < text.length then 3
      else if 1500 < text.length then 1
      else 0
    else ty
  if 5 ≤ ty then "Experienced"
  else if 2 ≤ ty then "Intermediate"
  else "Fresher"

/-- C10's hypothesis: every occurrence of `kw` in `hay` is followed by a
non-word character or the end of the string. -/
def occNotBeforeWord (kw hay : List Char) : Bool :=
  (List.range hay.length).all fun i =>
    !(kw.isPrefixOf (hay.drop i)) || !(isWordO ((hay.drop (i + kw.length)).head?))

/-! # Helper lemmas -/

lemma totalStep_eq (now : PyDate) (acc : Int) (j : WorkEntry) :
    totalStep now acc j = acc + (entryMonthsAmended now j).getD 0 := by
  unfold totalStep entryMonthsAmended
  by_cases h1 : j.start_date = "" <;> simp only [h1, ite_true, ite_false]
  · simp
  · by_cases h2 : j.end_date = "" <;> simp only [h2, ite_true, ite_false]
    · simp
    · rcases hp : parseYM j.start_date with _ | ⟨sy, sm⟩ <;>
      rcases hq : parseYM (if j.end_date = "Present" then fmtYM now else j.end_date)
        with _ | ⟨ey, em⟩ <;>
      simp [hp, hq]

lemma totalFold_eq (now : PyDate) :
    ∀ (we : List WorkEntry) (acc : Int),
      we.foldl (totalStep now) acc = acc + (we.filterMap (entryMonthsAmended now)).sum := by
  intro we
  induction we with
  | nil => intro acc; simp
  | cons j t ih =>
    intro acc
    simp only [List.foldl_cons, List.filterMap_cons]
    rw [totalStep_eq]
    cases h : entryMonthsAmended now j with
    | none => simp only [h, Option.getD_none, add_zero]; rw [ih]
    | some m => simp only [h, Option.getD_some]; rw [ih]; simp; ring

lemma levelStep_eq (now : PyDate) (acc : Int) (j : WorkEntry) :
    levelStep now acc j = acc + (entryYearsAmended now j).getD 0 := by
  unfold levelStep entryYearsAmended
  by_cases h1 : j.start_date = "" <;> simp only [h1, ite_true, ite_false]
  · simp
  · by_cases h2 : j.end_date = "" <;> simp only [h2, ite_true, ite_false]
    · simp
    · rcases hp : (if j.start_date ≠ "" then pyInt (j.start_date.data.take 4) else some 0)
        with _ | sy <;>
      rcases hq : (if j.end_date ≠ "Present" then pyInt (j.end_date.data.take 4)
          else some (Int.ofNat now.year)) with _ | ey <;>
      simp [hp, hq]

lemma levelFold_eq (now : PyDate) :
    ∀ (we : List WorkEntry) (acc : Int),
      we.foldl (levelStep now) acc = acc + (we.filterMap (entryYearsAmended now)).sum := by
  intro we
  induction we with
  | nil => intro acc; simp
  | cons j t ih =>
    intro acc
    simp only [List.foldl_cons, List.filterMap_cons]
    rw [levelStep_eq]
    cases h : entryYearsAmended now j with
    | none => simp only [h, Option.getD_none, add_zero]; rw [ih]
    | some m => simp only [h, Option.getD_some]; rw [ih]; simp; ring

lemma matchCategory_nodup (kws : List String) (low : List Char) :
    (matchCategory kws low).Nodup := List.nodup_dedup _

lemma matchCategory_mem (kws : List String) (low : List Char) (x : String) :
    x ∈ matchCategory kws low ↔
      ∃ kw, kw ∈ kws ∧ wordSearchKw kw.data low = true ∧ x = pyTitle kw := by
  unfold matchCategory
  rw [List.mem_dedup, List.mem_map]
  constructor
  · rintro ⟨kw, hkw, rfl⟩
    rw [List.mem_filter] at hkw
    exact ⟨kw, hkw.1, hkw.2, rfl⟩
  · rintro ⟨kw, h1, h2, rfl⟩
    exact ⟨kw, List.mem_filter.mpr ⟨h1, h2⟩, rfl⟩

lemma sumLoop_clean : ∀ (lines : List (List Char)) (inSum : Bool) (acc : List Char),
    ∃ ls : List (List Char),
      (∀ l ∈ ls, containsAny (lowerL l) sumHeaderKw = false) ∧
      sumLoop lines inSum acc =
        pyStripL (ls.foldl (fun a l => a ++ l ++ [' ']) acc) := by
  intro lines
  induction lines with
  | nil => intro inSum acc; exact ⟨[], by simp, by simp [sumLoop]⟩
  | cons l rest ih =>
    intro inSum acc
    rw [sumLoop]
    split
    · exact ih true acc
    · next h1 =>
      split
      · split
        · split
          · exact ⟨[], by simp, by simp⟩
          · obtain ⟨ls, hls, heq⟩ := ih true (acc ++ pyStripL l ++ [' '])
            refine ⟨pyStripL l :: ls, ?_, by simpa using heq⟩
            intro x hx
            rcases List.mem_cons.mp hx with rfl | hx
            · simpa using h1
            · exact hls x hx
        · split
          · exact ih _ acc
          · exact ⟨[], by simp, by simp⟩
      · exact ih _ acc

lemma yearTok_group {cs : List Char} {g : String} {n : Nat}
    (h : yearTok cs = some (g, n)) : g = "" ∨ g = "19" ∨ g = "20" := by
  unfold yearTok at h
  by_cases hy : yearHere cs
  · rw [if_pos hy] at h
    rcases cs with _ | ⟨c1, _ | ⟨c2, _ | ⟨c3, _ | ⟨c4, rest⟩⟩⟩⟩
    · exact absurd hy (by simp [yearHere])
    · exact absurd hy (by simp [yearHere])
    · exact absurd hy (by simp [yearHere])
    · exact absurd hy (by simp [yearHere])
    · injection h with h1
      obtain ⟨hg, -⟩ := Prod.mk.injEq .. ▸ h1
      have h12 : (c1 = '1' ∧ c2 = '9') ∨ (c1 = '2' ∧ c2 = '0') := by
        have hy2 := hy
        simp only [yearHere, Bool.and_eq_true, Bool.or_eq_true, beq_iff_eq] at hy2
        exact hy2.1.1
      rcases h12 with ⟨rfl, rfl⟩ | ⟨rfl, rfl⟩
      · right; left; rw [← hg]; rfl
      · right; right; rw [← hg]; rfl
  · rw [if_neg hy] at h
    split at h
    · injection h with h1
      obtain ⟨hg, -⟩ := Prod.mk.injEq .. ▸ h1
      left; rw [← hg]
    · split at h
      · injection h with h1
        obtain ⟨hg, -⟩ := Prod.mk.injEq .. ▸ h1
        left; rw [← hg]
      · cases h

lemma yearFindallF_mem : ∀ (fuel : Nat) (cs : List Char) (g : String),
    g ∈ yearFindallF fuel cs → g = "" ∨ g = "19" ∨ g = "20" := by
  intro fuel
  induction fuel with
  | zero => intro cs g h; simp [yearFindallF] at h
  | succ f ih =>
    intro cs g h
    cases cs with
    | nil => simp [yearFindallF] at h
    | cons c rest =>
      rw [yearFindallF] at h
      cases htok : yearTok (c :: rest) with
      | none => rw [htok] at h; exact ih _ _ h
      | some p =>
        obtain ⟨g1, n1⟩ := p
        rw [htok] at h
        rcases List.mem_cons.mp h with rfl | h1
        · exact yearTok_group htok
        · exact ih _ _ h1

lemma applyYears_end_ne {j : WorkEntry} {ds : List String}
    (hds : ∀ g ∈ ds, g = "" ∨ g = "19" ∨ g = "20")
    (hj : j.end_date ≠ "Present") : (applyYears j ds).end_date ≠ "Present" := by
  unfold applyYears
  rcases ds with _ | ⟨d0, _ | ⟨d1, t⟩⟩
  · exact hj
  · exact hj
  · have hd1 := hds d1 (by simp)
    show (if d1 ≠ "Present" ∧ d1 ≠ "Current" then d1 ++ "-01" else "Present") ≠ "Present"
    rcases hd1 with rfl | rfl | rfl <;> decide

lemma openJob_end_eq {lc : List Char} {j : WorkEntry} (h : openJob lc = some j) :
    j.end_date = "" := by
  unfold openJob at h
  split at h <;> split at h <;> first
    | (injection h with h1; rw [← h1])
    | cases h

lemma applyDatesLine_end_ne {lc : List Char} {cur : Option WorkEntry} {j : WorkEntry}
    (h : applyDatesLine lc cur = some j)
    (hcur : ∀ j0, cur = some j0 → j0.end_date ≠ "Present") :
    j.end_date ≠ "Present" := by
  unfold applyDatesLine at h
  cases hds : dateSearch lc with
  | none => rw [hds] at h; exact hcur j h
  | some ds =>
    rw [hds] at h
    cases cur with
    | none => cases h
    | some j0 =>
      injection h with h1
      rw [← h1]
      show (applyYears j0 (yearFindall ds)).end_date ≠ "Present"
      exact applyYears_end_ne (fun g hg => yearFindallF_mem _ _ _ hg) (hcur j0 rfl)

lemma addResp_end (lc : List Char) (j : WorkEntry) :
    (addResp lc j).end_date = j.end_date := by
  unfold addResp
  split
  · dsimp only
    split <;> rfl
  · rfl

lemma weLoop_end_ne : ∀ (lines : List (List Char)) (inSec : Bool)
    (cur : Option WorkEntry) (acc : List WorkEntry),
    (∀ j ∈ acc, j.end_date ≠ "Present") →
    (∀ j, cur = some j → j.end_date ≠ "Present") →
    ∀ j ∈ weLoop lines inSec cur acc, j.end_date ≠ "Present" := by
  intro lines
  induction lines with
  | nil =>
    intro inSec cur acc hacc hcur j hj
    rw [weLoop.eq_def] at hj
    dsimp only at hj
    rcases List.mem_append.mp hj with h | h
    · exact hacc j h
    · cases cur with
      | none => simp [flushW] at h
      | some j0 =>
        simp only [flushW, List.mem_singleton] at h
        exact h ▸ hcur j0 rfl
  | cons l rest ih =>
    intro inSec cur acc hacc hcur j hj
    rw [weLoop.eq_def] at hj
    dsimp only at hj
    split at hj
    · exact ih _ _ _ hacc hcur j hj
    · split at hj
      · exact ih _ _ _ hacc hcur j hj
      · split at hj
        · split at hj
          · rcases List.mem_append.mp hj with h | h
            · exact hacc j h
            · cases cur with
              | none => simp [flushW] at h
              | some j0 =>
                simp only [flushW, List.mem_singleton] at h
                exact h ▸ hcur j0 rfl
          · split at hj
            · split at hj
              · refine ih _ _ _ hacc ?_ j hj
                intro j0 h0
                refine applyDatesLine_end_ne h0 ?_
                intro j1 h1
                rw [openJob_end_eq h1]
                decide
              · exact ih _ _ _ hacc (by intro j0 h0; cases h0) j hj
            · next j0 =>
                split at hj
                · split at hj
                  · refine ih _ _ _ ?_ (by intro j1 h1; cases h1) j hj
                    intro j1 h1
                    rcases List.mem_append.mp h1 with h2 | h2
                    · exact hacc j1 h2
                    · simp only [List.mem_singleton] at h2
                      rw [h2, addResp_end]
                      exact hcur j0 rfl
                  · refine ih _ _ _ hacc ?_ j hj
                    intro j1 h1
                    injection h1 with h2
                    rw [← h2, addResp_end]
                    exact hcur j0 rfl
                · refine ih _ _ _ hacc ?_ j hj
                  intro j1 h1
                  injection h1 with h2
                  rw [← h2, addResp_end]
                  exact hcur j0 rfl
        · exact ih _ _ _ hacc hcur j hj

lemma extract_work_end_ne (text : String) :
    ∀ j ∈ extract_work_experience text, j.end_date ≠ "Present" :=
  weLoop_end_ne _ false none [] (by simp) (by intro j h; cases h)

lemma totalFoldNow_eq (n₁ n₂ : PyDate) :
    ∀ (we : List WorkEntry), (∀ j ∈ we, j.end_date ≠ "Present") →
      ∀ acc : Int, we.foldl (totalStep n₁) acc = we.foldl (totalStep n₂) acc := by
  intro we
  induction we with
  | nil => intro _ acc; rfl
  | cons j t ih =>
    intro h acc
    simp only [List.foldl_cons]
    have hP : j.end_date ≠ "Present" := h j (List.mem_cons_self _ _)
    have hstep : totalStep n₁ acc j = totalStep n₂ acc j := by
      unfold totalStep
      simp only [if_neg hP]
    rw [hstep]
    exact ih (fun x hx => h x (List.mem_cons_of_mem _ hx)) _

lemma levelFoldNow_eq (n₁ n₂ : PyDate) :
    ∀ (we : List WorkEntry), (∀ j ∈ we, j.end_date ≠ "Present") →
      ∀ acc : Int, we.foldl (levelStep n₁) acc = we.foldl (levelStep n₂) acc := by
  intro we
  induction we with
  | nil => intro _ acc; rfl
  | cons j t ih =>
    intro h acc
    simp only [List.foldl_cons]
    have hP : j.end_date ≠ "Present" := h j (List.mem_cons_self _ _)
    have hstep : levelStep n₁ acc j = levelStep n₂ acc j := by
      unfold levelStep
      simp only [if_pos hP]
    rw [hstep]
    exact ih (fun x hx => h x (List.mem_cons_of_mem _ hx)) _

/-! # Claim theorems -/

/-- C1: the claim says the date-range on the line
`"Software Engineer at Acme Corp 2019 - 2021"` is normalized to
`start_date = "2019-01"`, `end_date = "2021-01"`, `duration = "2019 - 2021"`.
The code's `re.findall(r'(19|20)\d{2}|Present|Current', ...)` returns the
*capture group* (`"19"`/`"20"`), not the full 4-digit year, so the stored
values are `start_date = "20-01"` and `end_date = "20-01"` — a slip
contradicting the intended `YYYY-01` normalization (the education extractor
uses `.group()` and gets it right).  This theorem evaluates the embedded
code at the claim's own example. -/
theorem claim_C1_findall_group_bug :
    extract_work_experience "Experience\nSoftware Engineer at Acme Corp 2019 - 2021" =
      [{ company_name := "Acme Corp 2019 - 2021", job_title := "Software Engineer",
         start_date := "20-01", end_date := "20-01", duration := "2019 - 2021",
         responsibilities := [] }] := by decide

/-- C2: every extractor is total (a Lean function) and structurally
complete: the personal-info dict always carries exactly its ten keys, the
skills dict its six category keys, the additional-info dict its three keys
(in literal order), and on empty input every extractor returns its
empty/default value rather than failing. -/
theorem claim_C2_structural_completeness : ∀ text : String,
    (piEntries (extract_personal_info text)).map Prod.fst =
      ["full_name", "location", "first_name", "last_name", "email", "phone",
       "address", "linkedin", "github", "portfolio"] ∧
    (skillsEntries (extract_skills text)).map Prod.fst =
      ["programming", "web", "data", "devops", "tools", "soft_skills"] ∧
    (aiEntries (extract_additional_info text)).map Prod.fst =
      ["certifications", "languages", "awards"] ∧
    extract_personal_info "" =
      { full_name := "", location := "", first_name := "", last_name := "",
        email := "", phone := "", address := "", linkedin := "", github := "",
        portfolio_link := "" } ∧
    extract_summary "" = "" ∧
    extract_work_experience "" = [] ∧
    extract_education "" = [] ∧
    extract_skills "" = { programming := [], web := [], data := [], devops := [],
                          tools := [], soft_skills := [] } ∧
    extract_projects "" = [] ∧
    extract_additional_info "" = { certifications := [], languages := [], awards := [] } :=
  fun _ => ⟨rfl, rfl, rfl, by decide, by decide, by decide, by decide, by decide,
            by decide, by decide⟩

/-- C3 counterexample: the claim restricts the sum to entries that "parse as
YYYY-MM", but the code accepts any `int`-`int` pair split on `-`: the entry
`start_date = "20-01"`, `end_date = "21-01"` is not of the form `YYYY-MM`
(so the claim predicts it is skipped, total `"0 months"`), yet
`calculate_total_experience` sums it and returns `"1 years"`. -/
theorem claim_C3_counterexample :
    calculate_total_experience
        [{ company_name := "Acme", job_title := "Dev", start_date := "20-01",
           end_date := "21-01", duration := "", responsibilities := [] }]
        ⟨2026, 10, 12⟩ = "1 years" ∧
    totalExperienceClaimed
        [{ company_name := "Acme", job_title := "Dev", start_date := "20-01",
           end_date := "21-01", duration := "", responsibilities := [] }]
        ⟨2026, 10, 12⟩ = "0 months" ∧
    isYYYYMM "20-01" = false := by decide

/-- C4 counterexample: the claim asserts a work history of 4 years 11 months
is "truncated to 4 whole years" and classified `"Intermediate"`.  The code
sums *calendar year differences*: the single entry 2015-02 … 2020-01 — a
span of 4 years 11 months by the program's own month arithmetic — gets
`2020 - 2015 = 5` whole years and is classified `"Experienced"`. -/
theorem claim_C4_counterexample :
    calculate_total_experience
        [{ company_name := "Acme", job_title := "Dev", start_date := "2015-02",
           end_date := "2020-01", duration := "", responsibilities := [] }]
        ⟨2026, 10, 12⟩ = "4 years 11 months" ∧
    calculate_experience_level
        [{ company_name := "Acme", job_title := "Dev", start_date := "2015-02",
           end_date := "2020-01", duration := "", responsibilities := [] }]
        "" ⟨2026, 10, 12⟩ = "Experienced" ∧
    ("Experienced" : String) ≠ "Intermediate" := by decide

/-- C3 (amended): `calculate_total_experience` sums, over exactly those
entries whose `start_date` and (Present-resolved) `end_date` are non-empty
and split on `-` into two `int`-parsable components — `YYYY-MM` in intent,
but any integers are accepted — the month difference
`(ey - sy) * 12 + (em - sm)`, skipping unparsable entries, and formats the
floor-divided total with the zero components omitted, years first; the
three formatting examples of the claim hold. -/
theorem claim_C3_amended_month_sum :
    (∀ (we : List WorkEntry) (now : PyDate),
        calculate_total_experience we now = totalExperienceAmended we now) ∧
    calculate_total_experience
        [{ company_name := "A", job_title := "B", start_date := "2020-01",
           end_date := "2020-07", duration := "", responsibilities := [] }]
        ⟨2026, 10, 12⟩ = "6 months" ∧
    calculate_total_experience
        [{ company_name := "A", job_title := "B", start_date := "2019-01",
           end_date := "2021-01", duration := "", responsibilities := [] }]
        ⟨2026, 10, 12⟩ = "2 years" ∧
    calculate_total_experience
        [{ company_name := "A", job_title := "B", start_date := "2020-01",
           end_date := "2021-04", duration := "", responsibilities := [] }]
        ⟨2026, 10, 12⟩ = "1 years 3 months" := by
  refine ⟨?_, by decide, by decide, by decide⟩
  intro we now
  unfold calculate_total_experience totalExperienceAmended
  rw [totalFold_eq]
  simp

/-- C4 (amended): `calculate_experience_level` sums calendar-year
differences `end_year - start_year` over entries with both dates present
and parseable (skipping errors), substitutes the text-length fallback iff
that sum is exactly zero, and tiers at 5 and 2; a history summing to 5
(2015-01 … 2020-01) is `"Experienced"`, and a 4-years-11-months span whose
calendar-year difference is 4 (2015-01 … 2019-12) is `"Intermediate"`. -/
theorem claim_C4_amended_year_sum :
    (∀ (we : List WorkEntry) (text : String) (now : PyDate),
        calculate_experience_level we text now = levelAmended we text now) ∧
    calculate_experience_level
        [{ company_name := "A", job_title := "B", start_date := "2015-01",
           end_date := "2020-01", duration := "", responsibilities := [] }]
        "" ⟨2026, 10, 12⟩ = "Experienced" ∧
    calculate_experience_level
        [{ company_name := "A", job_title := "B", start_date := "2015-01",
           end_date := "2019-12", duration := "", responsibilities := [] }]
        "" ⟨2026, 10, 12⟩ = "Intermediate" ∧
    calculate_total_experience
        [{ company_name := "A", job_title := "B", start_date := "2015-01",
           end_date := "2019-12", duration := "", responsibilities := [] }]
        ⟨2026, 10, 12⟩ = "4 years 11 months" := by
  refine ⟨?_, by decide, by decide, by decide⟩
  intro we text now
  unfold calculate_experience_level levelAmended
  rw [levelFold_eq]
  simp

/-- C5: each skills category is deduplicated, and a title-cased keyword is
in a category's list exactly when that keyword whole-word-matches the
lowered text; in particular `"Docker docker-compose"`-style text yields
exactly one `"Docker"` in `devops` and a `"Docker"` in `tools`. -/
theorem claim_C5_skill_categorization : ∀ text : String,
    ((extract_skills text).programming.Nodup ∧ (extract_skills text).web.Nodup ∧
     (extract_skills text).data.Nodup ∧ (extract_skills text).devops.Nodup ∧
     (extract_skills text).tools.Nodup ∧ (extract_skills text).soft_skills.Nodup) ∧
    (∀ x, x ∈ (extract_skills text).programming ↔
      ∃ kw, kw ∈ progKeywords ∧ wordSearchKw kw.data (lowerL text.data) = true ∧
        x = pyTitle kw) ∧
    (∀ x, x ∈ (extract_skills text).web ↔
      ∃ kw, kw ∈ webKeywords ∧ wordSearchKw kw.data (lowerL text.data) = true ∧
        x = pyTitle kw) ∧
    (∀ x, x ∈ (extract_skills text).data ↔
      ∃ kw, kw ∈ dataKeywords ∧ wordSearchKw kw.data (lowerL text.data) = true ∧
        x = pyTitle kw) ∧
    (∀ x, x ∈ (extract_skills text).devops ↔
      ∃ kw, kw ∈ devopsKeywords ∧ wordSearchKw kw.data (lowerL text.data) = true ∧
        x = pyTitle kw) ∧
    (∀ x, x ∈ (extract_skills text).tools ↔
      ∃ kw, kw ∈ toolsKeywords ∧ wordSearchKw kw.data (lowerL text.data) = true ∧
        x = pyTitle kw) ∧
    (∀ x, x ∈ (extract_skills text).soft_skills ↔
      ∃ kw, kw ∈ softKeywords ∧ wordSearchKw kw.data (lowerL text.data) = true ∧
        x = pyTitle kw) ∧
    ((extract_skills "Docker and docker-compose").devops.count "Docker" = 1 ∧
     "Docker" ∈ (extract_skills "Docker and docker-compose").tools) := by
  intro text
  refine ⟨⟨matchCategory_nodup _ _, matchCategory_nodup _ _, matchCategory_nodup _ _,
           matchCategory_nodup _ _, matchCategory_nodup _ _, matchCategory_nodup _ _⟩,
          fun x => matchCategory_mem _ _ x, fun x => matchCategory_mem _ _ x,
          fun x => matchCategory_mem _ _ x, fun x => matchCategory_mem _ _ x,
          fun x => matchCategory_mem _ _ x, fun x => matchCategory_mem _ _ x,
          by decide⟩

/-- C6 counterexample: on the entry-opening line
`"Engineer at Acme at Boston"` the claim predicts
`company_name = "Acme at Boston"` (all text after the word `at`); the code
splits at *every* whole-word `at` and takes `parts[1]`, so the stored
company is `"Acme"`. -/
theorem claim_C6_counterexample :
    (extract_work_experience "Experience\nEngineer at Acme at Boston").map
      (fun j => j.company_name) = ["Acme"] ∧
    ("Acme" : String) ≠ "Acme at Boston" := by decide

/-- C6 (amended): on an entry-opening line containing a whole-word `at`
(case-insensitive), the opened entry's `job_title` is the trimmed text
before the *first* `at` and its `company_name` is the trimmed text between
the first and the next `at` (the whole remainder when `at` occurs once);
the date fields of the freshly opened entry are empty (date extraction is
a separate pass over the line). -/
theorem claim_C6_amended_at_split (lc p0 p1 : List Char) (rest : List (List Char))
    (hat : hasAtWord none lc = true) (hsp : atSplit lc = p0 :: p1 :: rest) :
    openJob lc =
      some { company_name := String.mk (pyStripL p1),
             job_title := String.mk (pyStripL p0),
             start_date := "", end_date := "", duration := "",
             responsibilities := [] } := by
  unfold openJob
  rw [if_pos hat, hsp]

/-- C6 witness: the amended split theorem applied at the concrete line
`"Engineer at Acme at Boston"`. -/
theorem claim_C6_amended_at_split_witness :
    openJob "Engineer at Acme at Boston".data =
      some { company_name := "Acme", job_title := "Engineer", start_date := "",
             end_date := "", duration := "", responsibilities := [] } :=
  claim_C6_amended_at_split "Engineer at Acme at Boston".data
    "Engineer ".data " Acme ".data [" Boston".data] (by decide) (by decide)

/-- C7: with the current date made explicit, the whole pipeline is a pure
function of the text, and the assembled structured profile agrees on every
field except the analysis-timestamp metadata string across different
clock readings (the work-experience extractor never emits an `end_date`
of `"Present"`, so both experience metrics are clock-independent). -/
theorem claim_C7_profile_now_independent (text : String) (n₁ n₂ : PyDate) :
    (analyzeResume text n₁).personal_info = (analyzeResume text n₂).personal_info ∧
    (analyzeResume text n₁).summary = (analyzeResume text n₂).summary ∧
    (analyzeResume text n₁).work_experience = (analyzeResume text n₂).work_experience ∧
    (analyzeResume text n₁).education = (analyzeResume text n₂).education ∧
    (analyzeResume text n₁).skills = (analyzeResume text n₂).skills ∧
    (analyzeResume text n₁).projects = (analyzeResume text n₂).projects ∧
    (analyzeResume text n₁).certifications = (analyzeResume text n₂).certifications ∧
    (analyzeResume text n₁).languages = (analyzeResume text n₂).languages ∧
    (analyzeResume text n₁).awards = (analyzeResume text n₂).awards ∧
    (analyzeResume text n₁).total_experience = (analyzeResume text n₂).total_experience ∧
    (analyzeResume text n₁).experience_level = (analyzeResume text n₂).experience_level := by
  refine ⟨rfl, rfl, rfl, rfl, rfl, rfl, rfl, rfl, rfl, ?_, ?_⟩
  · show calculate_total_experience (extract_work_experience text) n₁ =
        calculate_total_experience (extract_work_experience text) n₂
    unfold calculate_total_experience
    rw [totalFoldNow_eq n₁ n₂ _ (extract_work_end_ne text)]
  · show calculate_experience_level (extract_work_experience text) text n₁ =
        calculate_experience_level (extract_work_experience text) text n₂
    unfold calculate_experience_level
    rw [levelFoldNow_eq n₁ n₂ _ (extract_work_end_ne text)]

/-- C8 counterexample: the claim says a trimmed line of length between 2
and 50 *inclusive* qualifies as a name; the code requires
`len > 2 and len < 50` strictly, so the two-character resume `"Jo"` —
which satisfies every claimed condition — yields empty name fields. -/
theorem claim_C8_counterexample :
    claimNameOkIncl "Jo".data = true ∧
    (extract_personal_info "Jo").full_name = "" ∧
    (extract_personal_info "Jo").first_name = "" ∧
    (extract_personal_info "Jo").last_name = "" := by decide

/-- C8 (amended): `full_name` is the first of the first 10 stripped lines
whose length is strictly greater than 2 and strictly less than 50, that
contains no excluded keyword (case-insensitive) and consists only of
letters, whitespace, periods and hyphens; the accepted line is
whitespace-split with the first token as `first_name` and the last token
as `last_name` (empty for a single token); with no qualifying line all
three fields stay empty. -/
theorem claim_C8_amended_name_scan (text : String) :
    (match ((pySplitLines text).take 10 |>.map pyStripL).find? nameOk with
     | some lc =>
       (extract_personal_info text).full_name = String.mk lc ∧
       (match pySplitWs lc with
        | [] => (extract_personal_info text).first_name = "" ∧
                (extract_personal_info text).last_name = ""
        | h :: t =>
          (extract_personal_info text).first_name = String.mk h ∧
          (extract_personal_info text).last_name =
            (if t.isEmpty then "" else String.mk ((h :: t).getLastD [])))
     | none =>
       (extract_personal_info text).full_name = "" ∧
       (extract_personal_info text).first_name = "" ∧
       (extract_personal_info text).last_name = "" : Prop) := by
  cases hnm : ((pySplitLines text).take 10 |>.map pyStripL).find? nameOk with
  | none =>
    simp only [hnm]
    simp only [extract_personal_info, hnm]
    exact ⟨trivial, trivial, trivial⟩
  | some lc =>
    simp only [hnm]
    simp only [extract_personal_info, hnm]
    cases hws : pySplitWs lc with
    | nil => simp only [hws]; exact ⟨trivial, trivial, trivial⟩
    | cons h t => simp only [hws]; exact ⟨trivial, trivial, trivial⟩

/-- C9: the summary returned by `extract_summary` is assembled only from
lines that contain none of the header keywords `summary`, `objective`,
`profile`, `about` (case-insensitive): every such keyword line — also one
encountered after accumulation has begun — is skipped, never appended. -/
theorem claim_C9_summary_skips_header_lines : ∀ text : String,
    ∃ ls : List (List Char),
      (∀ l ∈ ls, containsAny (lowerL l) sumHeaderKw = false) ∧
      extract_summary text =
        String.mk (pyStripL (ls.foldl (fun a l => a ++ l ++ [' ']) [])) := by
  intro text
  obtain ⟨ls, h1, h2⟩ := sumLoop_clean (pySplitLines text) false []
  exact ⟨ls, h1, by rw [extract_summary, h2]⟩

/-- C10: the compiled patterns `\bc\+\+\b` and `\bc#\b` need a word
character right after the final punctuation character, so in any text
where every (case-insensitive) occurrence of `c++`, resp. `c#`, is
followed by a non-word character or the end of the text, the keyword
cannot match and `"C++"`, resp. `"C#"`, never appears in
`skills["programming"]`. -/
theorem claim_C10_cpp_csharp_unmatched (text : String)
    (h1 : occNotBeforeWord "c++".data (lowerL text.data) = true)
    (h2 : occNotBeforeWord "c#".data (lowerL text.data) = true) :
    "C++" ∉ (extract_skills text).programming ∧
    "C#" ∉ (extract_skills text).programming := by
  have key : ∀ kw : String,
      occNotBeforeWord kw.data (lowerL text.data) = true →
      isWordO kw.data.getLast? = false →
      wordSearchKw kw.data (lowerL text.data) = false := by
    intro kw hocc hlast
    rw [← Bool.not_eq_true]
    intro hsearch
    unfold wordSearchKw at hsearch
    rw [List.any_eq_true] at hsearch
    obtain ⟨i, hi, hmatch⟩ := hsearch
    unfold wordMatchAt at hmatch
    simp only [Bool.and_eq_true] at hmatch
    obtain ⟨⟨hpre, -⟩, hb2⟩ := hmatch
    rw [hlast] at hb2
    unfold occNotBeforeWord at hocc
    rw [List.all_eq_true] at hocc
    have hocc2 := hocc i hi
    simp only [Bool.or_eq_true, Bool.not_eq_true'] at hocc2
    rcases hocc2 with h | h
    · rw [hpre] at h; cases h
    · rw [h] at hb2; cases hb2
  constructor
  · intro hmem
    have hmem2 : "C++" ∈ matchCategory progKeywords (lowerL text.data) := hmem
    rw [matchCategory_mem] at hmem2
    obtain ⟨kw, hkw, hsearch, htitle⟩ := hmem2
    simp only [progKeywords, List.mem_cons, List.not_mem_nil, or_false] at hkw
    rcases hkw with rfl | rfl | rfl | rfl | rfl | rfl | rfl | rfl <;>
      first
        | exact absurd htitle (by decide)
        | (rw [key _ h1 (by decide)] at hsearch; cases hsearch)
  · intro hmem
    have hmem2 : "C#" ∈ matchCategory progKeywords (lowerL text.data) := hmem
    rw [matchCategory_mem] at hmem2
    obtain ⟨kw, hkw, hsearch, htitle⟩ := hmem2
    simp only [progKeywords, List.mem_cons, List.not_mem_nil, or_false] at hkw
    rcases hkw with rfl | rfl | rfl | rfl | rfl | rfl | rfl | rfl <;>
      first
        | exact absurd htitle (by decide)
        | (rw [key _ h2 (by decide)] at hsearch; cases hsearch)

/-- C10 witness: the no-match theorem applied at a concrete text in which
`c++` and `c#` are each followed by a space. -/
theorem claim_C10_cpp_csharp_unmatched_witness :
    "C++" ∉ (extract_skills "c++ tools and c# here").programming ∧
    "C#" ∉ (extract_skills "c++ tools and c# here").programming :=
  claim_C10_cpp_csharp_unmatched "c++ tools and c# here" (by decide) (by decide)
